import Mathlib

/-!
Verification development for `src/capcalc/niftidecomp.py` (`niftidecomp_workflow`).

The workflow is embedded shallowly:
* volumes are functions from a flattened spatial index and a time index to rationals
  (rationals stand in for the ideal values of the machine floats; the one place where
  IEEE non-finite values matter, the normalization division, is modelled explicitly
  with a tagged value type `NpVal`);
* the file system is a partial map from path strings to volumes;
* fatal failures (`sys.exit()`, uncaught exceptions) are `Except PipeError`;
* the order of the I/O performed by the front half of the workflow is captured as a
  list of `Event`s, so that statements of the form "fails before reading any data
  file" can be made about the trace;
* Python name-resolution errors (`NameError`) are modelled by explicit lists of the
  names the function ever binds, transcribed from the source.
-/

namespace Niftidecomp

/-- Fatal outcomes of `niftidecomp_workflow`: a failed NIfTI read, the mask
dimensionality check (lines 65-67), the inter-file / mask-vs-data dimension checks
(lines 89-93 and 115-119), an unknown normalization method (lines 158-160), a failed
load of a persisted model (lines 185-193, carrying the exception type name, the model
file path and the exception arguments), a Python `NameError` and a Python
`TypeError`. -/
inductive PipeError where
  | readFailure
  | dimensionality
  | dimensionMismatch
  | invalidConfiguration
  | modelLoad (typeName : String) (path : String) (argsRepr : String)
  | nameError (name : String)
  | typeError
  deriving DecidableEq

/-- I/O events of the front half of the workflow: the mask read at line 57 and the
per-file data reads of the loop at lines 72-112. -/
inductive Event where
  | readMask
  | readData (idx : ℕ)
  deriving DecidableEq

/-- NIfTI header dimensions as returned by `tide_io.parseniftidims`. -/
structure NiftiDims where
  x : ℕ
  y : ℕ
  slices : ℕ
  timepoints : ℕ
  deriving DecidableEq

/-- A volume, already flattened the way lines 63 and 110-112 flatten it: a function
from the flattened spatial index and the time index to the voxel value. -/
structure Volume where
  dims : NiftiDims
  vox : ℕ → ℕ → ℚ

/-- Modelled from the spec: `tide_io.readfromnifti` lives in `capcalc.io`, which is
not under src/.  The spec's Image I/O contract is `read(path) -> (image_handle,
data_array, header, dims, voxel_sizes)`, a function of a file path; a call with no
path to read, or with a path the file system does not provide, raises and the run
aborts (the source comments the call at line 57 with "read in data mask (it must
exist)").  The file system is modelled as a partial map from paths to volumes. -/
def readfromnifti (fs : String → Option Volume) : Option String → Option Volume
  | none => none
  | some path => fs path

/-- Line 60: `numspatiallocs = int(xsize) * int(ysize) * int(numslices)`. -/
def numSpatialLocs (d : NiftiDims) : ℕ := d.x * d.y * d.slices

/-- Lines 62-64: flatten the mask and take `np.where(themask > maskthresh)`;
`np.where` on a 1-D array of length `numspatiallocs` returns the selected indices in
increasing order. -/
def maskProclocs (maskvol : Volume) (maskthresh : ℚ) : List ℕ :=
  (List.range (numSpatialLocs maskvol.dims)).filter
    (fun j => decide (maskthresh < maskvol.vox j 0))

/-- Line 43: the default value of the `maskthresh` parameter. -/
def defaultMaskthresh : ℚ := 25 / 100

/-- Modelled from the spec: `tide_io.checkspacedimmatch` (not under src/), contract
`check_space_dims_match(a, b) -> bool`: the spatial dimensions agree. -/
def checkspacedimmatch (a b : NiftiDims) : Bool :=
  a.x == b.x && a.y == b.y && a.slices == b.slices

/-- Modelled from the spec: `tide_io.checktimematch` (not under src/), contract
`check_time_match(a, b) -> bool`: the timepoint counts agree. -/
def checktimematch (a b : NiftiDims) : Bool :=
  a.timepoints == b.timepoints

/-- Lines 72-112 for the files after the first: read each file, check its dimensions
against the first file's (lines 89-93), and collect the volumes in order. -/
def stackLoop (fs : String → Option Volume) (d0 : NiftiDims) :
    List String → ℕ → List Event × Except PipeError (List Volume)
  | [], _ => ([], .ok [])
  | f :: rest, idx =>
    match fs f with
    | none => ([.readData idx], .error .readFailure)
    | some vol =>
      if checkspacedimmatch vol.dims d0 && checktimematch vol.dims d0 then
        let r := stackLoop fs d0 rest (idx + 1)
        (.readData idx :: r.1, r.2.map (fun vols => vol :: vols))
      else
        ([.readData idx], .error .dimensionMismatch)

/-- Lines 70-112: the whole data-read loop.  The first file fixes the canonical
dimensions (lines 82-87).  An empty file list leaves `datafiledims` unbound, which
the caller turns into a `NameError` at the line-117 check; that case is signalled
here with `none`. -/
def readDataPhase (fs : String → Option Volume) :
    List String → List Event × Except PipeError (Option (NiftiDims × List Volume))
  | [] => ([], .ok none)
  | f :: rest =>
    match fs f with
    | none => ([.readData 0], .error .readFailure)
    | some v0 =>
      let r := stackLoop fs v0.dims rest 1
      (.readData 0 :: r.1, r.2.map (fun vols => some (v0.dims, v0 :: vols)))

/-- Lines 87 and 110-112: `rs_datafile` is zero-initialized and column block
`idx*timepoints .. (idx+1)*timepoints` holds file `idx`'s data. -/
def stackRs (d0 : NiftiDims) (vols : List Volume) : ℕ → ℕ → ℚ :=
  fun j τ =>
    match vols.get? (τ / d0.timepoints) with
    | some vol => vol.vox j (τ % d0.timepoints)
    | none => 0

/-- The state the front half of the workflow hands to the decomposition half. -/
structure FrontendOut where
  canonicalDims : NiftiDims
  totaltimepoints : ℕ
  rs_datafile : ℕ → ℕ → ℚ
  proclocs : List ℕ

/-- Lines 49-121 of `niftidecomp_workflow`: read the mask (unconditionally, line 57),
check it is 3-D (lines 62-67), read and stack the data files (lines 70-112), and
check the mask's spatial dimensions against the data's (lines 115-119).  The first
component is the trace of reads performed. -/
def frontend (fs : String → Option Volume) (datafilelist : List String)
    (datamaskname : Option String) (maskthresh : ℚ) :
    List Event × Except PipeError FrontendOut :=
  match readfromnifti fs datamaskname with
  | none => ([Event.readMask], .error .readFailure)
  | some maskvol =>
    if maskvol.dims.timepoints = 1 then
      let proclocs := maskProclocs maskvol maskthresh
      let r := readDataPhase fs datafilelist
      (Event.readMask :: r.1,
        match r.2 with
        | .error e => .error e
        | .ok none => .error (.nameError "datafiledims")
        | .ok (some (d0, vols)) =>
          if checkspacedimmatch d0 maskvol.dims then
            .ok { canonicalDims := d0
                , totaltimepoints := d0.timepoints * datafilelist.length
                , rs_datafile := stackRs d0 vols
                , proclocs := proclocs }
          else .error .dimensionMismatch)
    else ([Event.readMask], .error .dimensionality)

/-- `np.max` along the voxel axis (0 for an empty axis, which numpy would reject;
all uses below are guarded by a positivity hypothesis or give 0 - 0 = 0). -/
def np_max {v : ℕ} (x : Fin v → ℚ) : ℚ :=
  if h : 0 < v then Finset.univ.sup' ⟨⟨0, h⟩, Finset.mem_univ _⟩ x else 0

/-- `np.min` along the voxel axis. -/
def np_min {v : ℕ} (x : Fin v → ℚ) : ℚ :=
  if h : 0 < v then Finset.univ.inf' ⟨⟨0, h⟩, Finset.mem_univ _⟩ x else 0

/-- Lines 122-127: the mask-absent fallback: per-voxel `max - min` over time, and
`np.where(thediffs > 0.0)`. -/
def fallbackProclocs (numspatiallocs totaltimepoints : ℕ) (rs : ℕ → ℕ → ℚ) :
    List ℕ :=
  (List.range numspatiallocs).filter
    (fun j => decide (0 < np_max (fun τ : Fin totaltimepoints => rs j τ.val)
                        - np_min (fun τ : Fin totaltimepoints => rs j τ.val)))

theorem np_max_attained {v : ℕ} (hv : 0 < v) (x : Fin v → ℚ) :
    ∃ j, np_max x = x j ∧ ∀ k, x k ≤ np_max x := by
  unfold np_max
  rw [dif_pos hv]
  obtain ⟨j, -, hje⟩ := Finset.exists_mem_eq_sup' ⟨⟨0, hv⟩, Finset.mem_univ _⟩ x
  exact ⟨j, hje, fun k => Finset.le_sup' x (Finset.mem_univ k)⟩

theorem np_min_attained {v : ℕ} (hv : 0 < v) (x : Fin v → ℚ) :
    ∃ j, np_min x = x j ∧ ∀ k, np_min x ≤ x k := by
  unfold np_min
  rw [dif_pos hv]
  obtain ⟨j, -, hje⟩ := Finset.exists_mem_eq_inf' ⟨⟨0, hv⟩, Finset.mem_univ _⟩ x
  exact ⟨j, hje, fun k => Finset.inf'_le x (Finset.mem_univ k)⟩

theorem pos_range_iff {T : ℕ} (x : Fin T → ℚ) :
    0 < np_max x - np_min x ↔ ∃ τ1 τ2 : Fin T, x τ2 < x τ1 := by
  rcases Nat.eq_zero_or_pos T with hT | hT
  · subst hT
    constructor
    · intro h
      simp [np_max, np_min] at h
    · rintro ⟨τ1, -⟩
      exact absurd τ1.2 (by simp)
  · rw [sub_pos]
    constructor
    · intro h
      obtain ⟨jmax, hmax, -⟩ := np_max_attained hT x
      obtain ⟨jmin, hmin, -⟩ := np_min_attained hT x
      exact ⟨jmax, jmin, by rw [← hmax, ← hmin]; exact h⟩
    · rintro ⟨τ1, τ2, hlt⟩
      obtain ⟨-, -, hle1⟩ := np_max_attained hT x
      obtain ⟨-, -, hle2⟩ := np_min_attained hT x
      exact lt_of_le_of_lt (hle2 τ2) (lt_of_lt_of_le hlt (hle1 τ1))

/-- Claim C2: if the mask volume has a timepoint count different from 1 the workflow
fails with the Dimensionality error having performed only the mask read (no data file
is read); if the mask has exactly one timepoint, the `proclocs` the front end hands
on are exactly the flattened spatial indices whose mask value is strictly greater
than the threshold, whose default is 0.25. -/
theorem C2_mask_dimensionality
    (fs : String → Option Volume) (maskpath : String) (maskvol : Volume)
    (datafilelist : List String) (maskthresh : ℚ)
    (hread : fs maskpath = some maskvol) :
    (maskvol.dims.timepoints ≠ 1 →
      frontend fs datafilelist (some maskpath) maskthresh
        = ([Event.readMask], .error .dimensionality)) ∧
    (maskvol.dims.timepoints = 1 →
      (∀ out, (frontend fs datafilelist (some maskpath) maskthresh).2 = .ok out →
        out.proclocs = maskProclocs maskvol maskthresh) ∧
      (∀ j, j ∈ maskProclocs maskvol maskthresh ↔
        j < numSpatialLocs maskvol.dims ∧ maskthresh < maskvol.vox j 0)) ∧
    defaultMaskthresh = 25 / 100 := by
  refine ⟨fun ht => ?_, fun ht => ⟨fun out hout => ?_, fun j => ?_⟩, rfl⟩
  · unfold frontend readfromnifti
    dsimp only
    rw [hread]
    dsimp only
    rw [if_neg ht]
  · unfold frontend readfromnifti at hout
    dsimp only at hout
    rw [hread] at hout
    dsimp only at hout
    rw [if_pos ht] at hout
    dsimp only at hout
    rcases h2 : (readDataPhase fs datafilelist).2 with e | o
    · rw [h2] at hout; exact absurd hout (by simp)
    · rw [h2] at hout
      rcases o with - | ⟨d0, vols⟩
      · exact absurd hout (by simp)
      · dsimp only at hout
        by_cases hc : checkspacedimmatch d0 maskvol.dims
        · rw [if_pos hc] at hout
          cases hout
          rfl
        · rw [if_neg hc] at hout
          exact absurd hout (by simp)
  · unfold maskProclocs
    simp [List.mem_filter]

/-- Claim C3: with no mask path supplied (`datamaskname = None`) the workflow fails
at the unconditional mask read of line 57, before any data file is read and before
any voxel selection happens; the nonzero-temporal-range fallback of lines 122-127
(which selects exactly the voxels whose time series is not constant) is dead code on
this path. -/
theorem C3_nomask_aborts_at_read
    (fs : String → Option Volume) (datafilelist : List String) (maskthresh : ℚ) :
    frontend fs datafilelist none maskthresh
      = ([Event.readMask], .error .readFailure) ∧
    (∀ n T rs j, j ∈ fallbackProclocs n T rs ↔
      j < n ∧ ∃ τ1 τ2, τ1 < T ∧ τ2 < T ∧ rs j τ2 < rs j τ1) := by
  refine ⟨rfl, fun n T rs j => ?_⟩
  unfold fallbackProclocs
  rw [List.mem_filter, List.mem_range, decide_eq_true_iff, pos_range_iff]
  constructor
  · rintro ⟨hj, τ1, τ2, hlt⟩
    exact ⟨hj, τ1.val, τ2.val, τ1.2, τ2.2, hlt⟩
  · rintro ⟨hj, τ1, τ2, h1, h2, hlt⟩
    exact ⟨hj, ⟨τ1, h1⟩, ⟨τ2, h2⟩, hlt⟩

/-- A concrete 2x1x1 mask volume with 5 timepoints, used to exercise C2. -/
def c2maskvol : Volume :=
  { dims := { x := 2, y := 1, slices := 1, timepoints := 5 }, vox := fun _ _ => 1 }

/-- A concrete file system mapping every path to `c2maskvol`. -/
def c2fs : String → Option Volume := fun _ => some c2maskvol

theorem C2_mask_dimensionality_witness :
    c2fs "mask.nii" = some c2maskvol ∧
    ((c2maskvol.dims.timepoints ≠ 1 →
      frontend c2fs ["data.nii"] (some "mask.nii") defaultMaskthresh
        = ([Event.readMask], .error .dimensionality)) ∧
    (c2maskvol.dims.timepoints = 1 →
      (∀ out, (frontend c2fs ["data.nii"] (some "mask.nii") defaultMaskthresh).2
          = .ok out → out.proclocs = maskProclocs c2maskvol defaultMaskthresh) ∧
      (∀ j, j ∈ maskProclocs c2maskvol defaultMaskthresh ↔
        j < numSpatialLocs c2maskvol.dims ∧ defaultMaskthresh < c2maskvol.vox j 0)) ∧
    defaultMaskthresh = 25 / 100) :=
  ⟨rfl, C2_mask_dimensionality c2fs "mask.nii" c2maskvol ["data.nii"] defaultMaskthresh rfl⟩

/-- `np.mean` along the voxel axis: the sum divided by the axis length. -/
def np_mean {v : ℕ} (x : Fin v → ℚ) : ℚ := (∑ j, x j) / v

/-- `np.var` along the voxel axis (`ddof = 0`): the mean of the squared deviations
from the mean. -/
def np_var {v : ℕ} (x : Fin v → ℚ) : ℚ := np_mean (fun j => (x j - np_mean x) ^ 2)

/-- `np.median` along the voxel axis: the middle element of the sorted values when
the length is odd, the average of the two middle elements when it is even. -/
def np_median {v : ℕ} (x : Fin v → ℚ) : ℚ :=
  if v % 2 = 1 then ((List.ofFn x).insertionSort (· ≤ ·)).getD (v / 2) 0
  else (((List.ofFn x).insertionSort (· ≤ ·)).getD (v / 2 - 1) 0
        + ((List.ofFn x).insertionSort (· ≤ ·)).getD (v / 2) 0) / 2

/-- An IEEE double as it matters to this code: a finite value (idealized as a
rational), a NaN, or a signed infinity. -/
inductive NpVal where
  | fin (q : ℚ)
  | nan
  | inf
  | ninf
  deriving DecidableEq

/-- Numpy float division of finite values: `0/0` is NaN, `x/0` for `x ≠ 0` is a
signed infinity, everything else is the exact quotient. -/
def npDiv (a b : ℚ) : NpVal :=
  if b = 0 then (if a = 0 then .nan else if 0 < a then .inf else .ninf)
  else .fin (a / b)

/-- The largest finite IEEE double, `(2 - 2^-52) * 2^1023 = 1.7976931348623157e308`. -/
def dblMax : ℚ := (2 ^ 53 - 1) * 2 ^ 971

/-- `np.nan_to_num` with default arguments: NaN becomes 0, `+inf` becomes the largest
finite double and `-inf` its negation; finite values pass through. -/
def nan_to_num : NpVal → ℚ
  | .fin q => q
  | .nan => 0
  | .inf => dblMax
  | .ninf => -dblMax

/-- Column `i` of the voxels-by-timepoints matrix `A`. -/
def colAt {v t : ℕ} (A : Fin v → Fin t → ℚ) (i : Fin t) : Fin v → ℚ :=
  fun j => A j i

/-- Line 134: `themean = np.mean(procdata, axis=0)`, computed before any demeaning. -/
def themeanOf {v t : ℕ} (A : Fin v → Fin t → ℚ) : Fin t → ℚ :=
  fun i => np_mean (colAt A i)

/-- Lines 135-138: the demeaning loop subtracts `themean[i]` from every entry of
column `i` when `demean` is set. -/
def demeanedMatrix {v t : ℕ} (A : Fin v → Fin t → ℚ) (demean : Bool) :
    Fin v → Fin t → ℚ :=
  if demean then fun j i => A j i - themeanOf A i else A

/-- The six normalization methods the dispatch at lines 140-157 accepts. -/
def legalNormMethods : List String := ["None", "percent", "stddev", "z", "p2p", "mad"]

/-- Lines 140-160: the per-timepoint normalization factor.  `np.std` and the
statsmodels `mad` are external library routines whose exact values are not rational;
they enter as the parameters `stdFn` and `madFn` and are pinned down by hypotheses in
the theorems below.  `procdata` here is the (possibly demeaned) matrix the dispatch
actually sees; `themean` is the pre-demean mean saved at line 134. -/
def thenormfacOf {v t : ℕ} (stdFn madFn : (Fin v → ℚ) → ℚ) (themean : Fin t → ℚ)
    (procdata : Fin v → Fin t → ℚ) (normmethod : String) :
    Except PipeError (Fin t → ℚ) :=
  if normmethod = "None" then .ok (fun i => themean i * 0 + 1)
  else if normmethod = "percent" then .ok themean
  else if normmethod = "stddev" then .ok (fun i => stdFn (colAt procdata i))
  else if normmethod = "z" then .ok (fun i => np_var (colAt procdata i))
  else if normmethod = "p2p" then
    .ok (fun i => np_max (colAt procdata i) - np_min (colAt procdata i))
  else if normmethod = "mad" then .ok (fun i => madFn (colAt procdata i))
  else .error .invalidConfiguration

/-- Lines 134-163: the whole Normalizer.  Returns the cleaned `procdata`, the saved
pre-demean `themean`, and `thenormfac`. -/
def normalizePhase {v t : ℕ} (stdFn madFn : (Fin v → ℚ) → ℚ)
    (A : Fin v → Fin t → ℚ) (normmethod : String) (demean : Bool) :
    Except PipeError ((Fin v → Fin t → ℚ) × (Fin t → ℚ) × (Fin t → ℚ)) :=
  let themean := themeanOf A
  let procdata1 := demeanedMatrix A demean
  match thenormfacOf stdFn madFn themean procdata1 normmethod with
  | .error e => .error e
  | .ok thenormfac =>
      .ok (fun j i => nan_to_num (npDiv (procdata1 j i) (thenormfac i)),
           themean, thenormfac)

theorem np_var_alt {v : ℕ} (hv : 0 < v) (x : Fin v → ℚ) :
    np_var x = np_mean (fun j => x j ^ 2) - np_mean x ^ 2 := by
  have hv' : (v : ℚ) ≠ 0 := Nat.cast_ne_zero.mpr hv.ne'
  unfold np_var np_mean
  have expand : ∀ j : Fin v, (x j - (∑ k, x k) / v) ^ 2
      = x j ^ 2 - 2 * ((∑ k, x k) / v) * x j + ((∑ k, x k) / v) ^ 2 :=
    fun j => by ring
  rw [Finset.sum_congr rfl (fun j _ => expand j)]
  rw [Finset.sum_add_distrib, Finset.sum_sub_distrib, ← Finset.mul_sum,
    Finset.sum_const, Finset.card_univ, Fintype.card_fin, nsmul_eq_mul]
  field_simp
  ring

theorem np_mean_demeaned {v t : ℕ} (hv : 0 < v) (A : Fin v → Fin t → ℚ) (i : Fin t) :
    np_mean (colAt (demeanedMatrix A true) i) = 0 := by
  have hv' : (v : ℚ) ≠ 0 := Nat.cast_ne_zero.mpr hv.ne'
  show np_mean (fun j => A j i - themeanOf A i) = 0
  simp only [np_mean, themeanOf, colAt]
  rw [div_eq_zero_iff]
  left
  rw [Finset.sum_sub_distrib, Finset.sum_const, Finset.card_univ, Fintype.card_fin,
    nsmul_eq_mul, mul_div_cancel₀ _ hv', sub_self]

theorem thenormfacOf_not_legal {v t : ℕ} (stdFn madFn : (Fin v → ℚ) → ℚ)
    (m : Fin t → ℚ) (A : Fin v → Fin t → ℚ) (s : String)
    (h : s ∉ legalNormMethods) :
    thenormfacOf stdFn madFn m A s = .error .invalidConfiguration := by
  have h1 : s ≠ "None" := fun e => h (by simp [legalNormMethods, e])
  have h2 : s ≠ "percent" := fun e => h (by simp [legalNormMethods, e])
  have h3 : s ≠ "stddev" := fun e => h (by simp [legalNormMethods, e])
  have h4 : s ≠ "z" := fun e => h (by simp [legalNormMethods, e])
  have h5 : s ≠ "p2p" := fun e => h (by simp [legalNormMethods, e])
  have h6 : s ≠ "mad" := fun e => h (by simp [legalNormMethods, e])
  unfold thenormfacOf
  rw [if_neg h1, if_neg h2, if_neg h3, if_neg h4, if_neg h5, if_neg h6]

theorem normalizePhase_spec {v t : ℕ} (stdFn madFn : (Fin v → ℚ) → ℚ)
    (A : Fin v → Fin t → ℚ) (m : String) (dm : Bool)
    (res : (Fin v → Fin t → ℚ) × (Fin t → ℚ) × (Fin t → ℚ))
    (hres : normalizePhase stdFn madFn A m dm = .ok res) :
    thenormfacOf stdFn madFn (themeanOf A) (demeanedMatrix A dm) m = .ok res.2.2 ∧
    res.2.1 = themeanOf A ∧
    ∀ j i, res.1 j i = nan_to_num (npDiv (demeanedMatrix A dm j i) (res.2.2 i)) := by
  unfold normalizePhase at hres
  dsimp only at hres
  rcases hfac : thenormfacOf stdFn madFn (themeanOf A) (demeanedMatrix A dm) m
    with e | fac
  · rw [hfac] at hres
    exact absurd hres (by simp)
  · rw [hfac] at hres
    cases hres
    exact ⟨rfl, rfl, fun j i => rfl⟩

/-- The raw median absolute deviation of a column: `median(|x - median(x)|)`. -/
def rawMad {v : ℕ} (x : Fin v → ℚ) : ℚ :=
  np_median (fun j => |x j - np_median x|)

/-- The scaling constant of `statsmodels.robust.mad`: its default `c` argument is
`Gaussian.ppf(3/4)`, the upper quartile of the standard normal; the IEEE double it
computes prints as 0.6744897501960817 and is exactly `6075263575296585 / 2^53`. -/
def madC : ℚ := 6075263575296585 / 2 ^ 53

/-- Modelled from the library: `statsmodels.robust.mad(a, axis=0)` with its default
arguments (`c = Gaussian.ppf(3/4)`, `center = np.median`) returns
`median(|a - median(a)|) / c` along the axis — the normalized median absolute
deviation, about 1.4826 times the raw one.  The statsmodels package is an external
collaborator; `capcalc` only imports `mad` (line 25) and calls it at line 157. -/
def statsmodels_mad {v : ℕ} (x : Fin v → ℚ) : ℚ := rawMad x / madC

/-- Claim C7 (amended): any normalization method outside the six legal strings makes
the Normalizer fail with the Invalid Configuration error (no output is produced),
and for the six legal methods the per-timepoint factor is respectively 1, the
pre-demean mean, the standard deviation (characterized as the nonnegative square
root of `np.var`), the variance, the max minus the min, and — for `"mad"` — the
NORMALIZED median absolute deviation `median(|x - median x|) / madC` computed by
statsmodels, which differs from the raw median absolute deviation whenever that is
nonzero.  `stdFn` and `madFn` embed the external `np.std` and statsmodels `mad`; the
hypotheses pin them to the standard deviation and to the library's normalized
median absolute deviation of the columns they are applied to. -/
theorem C7_normmethod_dispatch {v t : ℕ} (stdFn madFn : (Fin v → ℚ) → ℚ)
    (A : Fin v → Fin t → ℚ) (dm : Bool) (hv : 0 < v)
    (hstd : ∀ i : Fin t, 0 ≤ stdFn (colAt (demeanedMatrix A dm) i) ∧
      stdFn (colAt (demeanedMatrix A dm) i) ^ 2 = np_var (colAt (demeanedMatrix A dm) i))
    (hmad : ∀ i : Fin t, madFn (colAt (demeanedMatrix A dm) i)
      = rawMad (colAt (demeanedMatrix A dm) i) / madC) :
    (∀ m, m ∉ legalNormMethods →
      normalizePhase stdFn madFn A m dm = .error .invalidConfiguration) ∧
    (∀ res, normalizePhase stdFn madFn A "None" dm = .ok res →
      ∀ i, res.2.2 i = 1) ∧
    (∀ res, normalizePhase stdFn madFn A "percent" dm = .ok res →
      ∀ i, res.2.2 i = np_mean (colAt A i)) ∧
    (∀ res, normalizePhase stdFn madFn A "stddev" dm = .ok res →
      ∀ i, 0 ≤ res.2.2 i ∧
        res.2.2 i ^ 2 = np_var (colAt (demeanedMatrix A dm) i)) ∧
    (∀ res, normalizePhase stdFn madFn A "z" dm = .ok res →
      ∀ i, res.2.2 i = np_mean (fun j => colAt (demeanedMatrix A dm) i j ^ 2)
        - np_mean (colAt (demeanedMatrix A dm) i) ^ 2) ∧
    (∀ res, normalizePhase stdFn madFn A "p2p" dm = .ok res →
      ∀ i, ∃ jmax jmin : Fin v,
        res.2.2 i = colAt (demeanedMatrix A dm) i jmax
          - colAt (demeanedMatrix A dm) i jmin ∧
        (∀ j, colAt (demeanedMatrix A dm) i j ≤ colAt (demeanedMatrix A dm) i jmax) ∧
        (∀ j, colAt (demeanedMatrix A dm) i jmin ≤ colAt (demeanedMatrix A dm) i j)) ∧
    (∀ res, normalizePhase stdFn madFn A "mad" dm = .ok res →
      ∀ i, res.2.2 i = rawMad (colAt (demeanedMatrix A dm) i) / madC ∧
        (rawMad (colAt (demeanedMatrix A dm) i) ≠ 0 →
          res.2.2 i ≠ rawMad (colAt (demeanedMatrix A dm) i))) := by
  refine ⟨fun m hm => ?_, fun res hres i => ?_, fun res hres i => ?_,
    fun res hres i => ?_, fun res hres i => ?_, fun res hres i => ?_,
    fun res hres i => ?_⟩
  · unfold normalizePhase
    dsimp only
    rw [thenormfacOf_not_legal _ _ _ _ _ hm]
  · obtain ⟨hfac, -, -⟩ := normalizePhase_spec _ _ _ _ _ _ hres
    have : Except.ok (ε := PipeError) (fun i => themeanOf A i * 0 + 1) = .ok res.2.2 := hfac
    have hf := Except.ok.inj this
    rw [← congrFun hf i]
    ring
  · obtain ⟨hfac, -, -⟩ := normalizePhase_spec _ _ _ _ _ _ hres
    have : Except.ok (ε := PipeError) (themeanOf A) = .ok res.2.2 := hfac
    have hf := Except.ok.inj this
    rw [← congrFun hf i]
    rfl
  · obtain ⟨hfac, -, -⟩ := normalizePhase_spec _ _ _ _ _ _ hres
    have : Except.ok (ε := PipeError)
        (fun i => stdFn (colAt (demeanedMatrix A dm) i)) = .ok res.2.2 := hfac
    have hf := Except.ok.inj this
    rw [← congrFun hf i]
    exact hstd i
  · obtain ⟨hfac, -, -⟩ := normalizePhase_spec _ _ _ _ _ _ hres
    have : Except.ok (ε := PipeError)
        (fun i => np_var (colAt (demeanedMatrix A dm) i)) = .ok res.2.2 := hfac
    have hf := Except.ok.inj this
    rw [← congrFun hf i]
    exact np_var_alt hv _
  · obtain ⟨hfac, -, -⟩ := normalizePhase_spec _ _ _ _ _ _ hres
    have : Except.ok (ε := PipeError)
        (fun i => np_max (colAt (demeanedMatrix A dm) i)
          - np_min (colAt (demeanedMatrix A dm) i)) = .ok res.2.2 := hfac
    have hf := Except.ok.inj this
    rw [← congrFun hf i]
    obtain ⟨jmax, hmax, hle1⟩ := np_max_attained hv (colAt (demeanedMatrix A dm) i)
    obtain ⟨jmin, hmin, hle2⟩ := np_min_attained hv (colAt (demeanedMatrix A dm) i)
    exact ⟨jmax, jmin, by rw [hmax, hmin], fun j => hmax ▸ hle1 j, fun j => hmin ▸ hle2 j⟩
  · obtain ⟨hfac, -, -⟩ := normalizePhase_spec _ _ _ _ _ _ hres
    have : Except.ok (ε := PipeError)
        (fun i => madFn (colAt (demeanedMatrix A dm) i)) = .ok res.2.2 := hfac
    have hf := Except.ok.inj this
    rw [← congrFun hf i, hmad i]
    have hC0 : madC ≠ 0 := by norm_num [madC]
    have hC1 : madC ≠ 1 := by norm_num [madC]
    refine ⟨rfl, fun hraw heq => ?_⟩
    have hmul : rawMad (colAt (demeanedMatrix A dm) i)
        = rawMad (colAt (demeanedMatrix A dm) i) * madC := (div_eq_iff hC0).mp heq
    have : (1 : ℚ) = madC := by
      have := hmul
      nth_rewrite 1 [← mul_one (rawMad (colAt (demeanedMatrix A dm) i))] at this
      exact mul_left_cancel₀ hraw this
    exact hC1 this.symm

/-- A concrete constant 1x1 data matrix used to exercise C7. -/
def c7A : Fin 1 → Fin 1 → ℚ := fun _ _ => 3

/-- A concrete stand-in for `np.std` valid for `c7A`'s (demeaned) columns. -/
def c7std : (Fin 1 → ℚ) → ℚ := fun _ => 0

/-- A concrete 2-voxel, 1-timepoint matrix with column (0, 2), whose raw median
absolute deviation is 1, used to exercise the `"mad"` branch. -/
def c7cA : Fin 2 → Fin 1 → ℚ := fun j _ => if j = 0 then 0 else 2

theorem c7std_spec : ∀ i : Fin 1, 0 ≤ c7std (colAt (demeanedMatrix c7A true) i) ∧
    c7std (colAt (demeanedMatrix c7A true) i) ^ 2
      = np_var (colAt (demeanedMatrix c7A true) i) := by
  intro i
  refine ⟨le_refl 0, ?_⟩
  simp [c7std, np_var, np_mean, colAt, demeanedMatrix, themeanOf, c7A,
    Fin.sum_univ_one]

theorem C7_normmethod_dispatch_witness :
    (0 < 1) ∧
    ((∀ m, m ∉ legalNormMethods →
      normalizePhase c7std statsmodels_mad c7A m true = .error .invalidConfiguration) ∧
    (∀ res, normalizePhase c7std statsmodels_mad c7A "None" true = .ok res →
      ∀ i, res.2.2 i = 1) ∧
    (∀ res, normalizePhase c7std statsmodels_mad c7A "percent" true = .ok res →
      ∀ i, res.2.2 i = np_mean (colAt c7A i)) ∧
    (∀ res, normalizePhase c7std statsmodels_mad c7A "stddev" true = .ok res →
      ∀ i, 0 ≤ res.2.2 i ∧
        res.2.2 i ^ 2 = np_var (colAt (demeanedMatrix c7A true) i)) ∧
    (∀ res, normalizePhase c7std statsmodels_mad c7A "z" true = .ok res →
      ∀ i, res.2.2 i = np_mean (fun j => colAt (demeanedMatrix c7A true) i j ^ 2)
        - np_mean (colAt (demeanedMatrix c7A true) i) ^ 2) ∧
    (∀ res, normalizePhase c7std statsmodels_mad c7A "p2p" true = .ok res →
      ∀ i, ∃ jmax jmin : Fin 1,
        res.2.2 i = colAt (demeanedMatrix c7A true) i jmax
          - colAt (demeanedMatrix c7A true) i jmin ∧
        (∀ j, colAt (demeanedMatrix c7A true) i j
          ≤ colAt (demeanedMatrix c7A true) i jmax) ∧
        (∀ j, colAt (demeanedMatrix c7A true) i jmin
          ≤ colAt (demeanedMatrix c7A true) i j)) ∧
    (∀ res, normalizePhase c7std statsmodels_mad c7A "mad" true = .ok res →
      ∀ i, res.2.2 i = rawMad (colAt (demeanedMatrix c7A true) i) / madC ∧
        (rawMad (colAt (demeanedMatrix c7A true) i) ≠ 0 →
          res.2.2 i ≠ rawMad (colAt (demeanedMatrix c7A true) i)))) :=
  ⟨Nat.one_pos,
    C7_normmethod_dispatch c7std statsmodels_mad c7A true Nat.one_pos c7std_spec
      (fun _ => rfl)⟩

/-- Claim C7 counterexample: on the column (0, 2) - whose median absolute deviation
is 1 - with `normmethod="mad"` and no demeaning, the factor the code computes through
`statsmodels.robust.mad` is `1 / madC` (about 1.4826), not the median absolute
deviation: the mad clause of the claim as stated is false of the code. -/
theorem C7_mad_counterexample :
    (normalizePhase (fun _ => 0) statsmodels_mad c7cA "mad" false).toOption.map
      (fun r => r.2.2 0) = some (rawMad (colAt c7cA 0) / madC) ∧
    rawMad (colAt c7cA 0) = 1 ∧
    rawMad (colAt c7cA 0) / madC ≠ rawMad (colAt c7cA 0) := by
  have hmed : np_median (colAt c7cA 0) = 1 := by
    have hofn : List.ofFn (colAt c7cA 0) = [0, 2] := by
      simp [List.ofFn_succ, List.ofFn_zero, colAt, c7cA]
    unfold np_median
    rw [hofn]
    norm_num [List.insertionSort, List.orderedInsert, List.getD_cons_zero,
      List.getD_cons_succ]
  have hraw : rawMad (colAt c7cA 0) = 1 := by
    unfold rawMad
    have hdev : (fun j => |colAt c7cA 0 j - np_median (colAt c7cA 0)|)
        = (fun _ : Fin 2 => (1 : ℚ)) := by
      funext j
      rw [hmed]
      fin_cases j
      all_goals simp [colAt, c7cA]
      all_goals norm_num
    rw [hdev]
    unfold np_median
    norm_num [List.ofFn_succ, List.ofFn_zero, List.insertionSort,
      List.orderedInsert, List.getD_cons_zero, List.getD_cons_succ]
  refine ⟨rfl, hraw, ?_⟩
  rw [hraw]
  norm_num [madC]

/-- Claim C8: with `normmethod="percent"` and demeaning on, the factor for each
timepoint is the pre-demean column mean saved at line 134 (not the mean of the
demeaned column, which is exactly 0), and each voxel's demeaned value at that
timepoint is divided by this pre-demean mean. -/
theorem C8_percent_predemean {v t : ℕ} (stdFn madFn : (Fin v → ℚ) → ℚ)
    (A : Fin v → Fin t → ℚ) (hv : 0 < v)
    (res : (Fin v → Fin t → ℚ) × (Fin t → ℚ) × (Fin t → ℚ))
    (hres : normalizePhase stdFn madFn A "percent" true = .ok res) (i : Fin t) :
    res.2.2 i = np_mean (colAt A i) ∧
    np_mean (colAt (demeanedMatrix A true) i) = 0 ∧
    (np_mean (colAt A i) ≠ 0 →
      res.2.2 i ≠ np_mean (colAt (demeanedMatrix A true) i)) ∧
    (np_mean (colAt A i) ≠ 0 →
      ∀ j, res.1 j i = (A j i - np_mean (colAt A i)) / np_mean (colAt A i)) := by
  obtain ⟨hfac, -, hdata⟩ := normalizePhase_spec _ _ _ _ _ _ hres
  have hok : Except.ok (ε := PipeError) (themeanOf A) = .ok res.2.2 := hfac
  have hf : res.2.2 i = np_mean (colAt A i) := (congrFun (Except.ok.inj hok) i).symm
  have hz := np_mean_demeaned hv A i
  refine ⟨hf, hz, fun hm => ?_, fun hm j => ?_⟩
  · rw [hf, hz]
    exact hm
  · rw [hdata j i, hf]
    rw [show demeanedMatrix A true j i = A j i - np_mean (colAt A i) from rfl]
    unfold npDiv
    rw [if_neg hm]
    rfl

/-- A concrete 2-voxel, 1-timepoint matrix with column mean 3, used to exercise C8. -/
def c8A : Fin 2 → Fin 1 → ℚ := fun j _ => if j = 0 then 2 else 4

/-- The value `normalizePhase` computes on `c8A` with `"percent"` and demeaning. -/
def c8res : (Fin 2 → Fin 1 → ℚ) × (Fin 1 → ℚ) × (Fin 1 → ℚ) :=
  (fun j i => nan_to_num (npDiv (demeanedMatrix c8A true j i) (themeanOf c8A i)),
   themeanOf c8A, themeanOf c8A)

theorem C8_percent_predemean_witness :
    (0 < 2) ∧
    normalizePhase (fun _ => 0) (fun _ => 0) c8A "percent" true = .ok c8res ∧
    (c8res.2.2 0 = np_mean (colAt c8A 0) ∧
    np_mean (colAt (demeanedMatrix c8A true) 0) = 0 ∧
    (np_mean (colAt c8A 0) ≠ 0 →
      c8res.2.2 0 ≠ np_mean (colAt (demeanedMatrix c8A true) 0)) ∧
    (np_mean (colAt c8A 0) ≠ 0 →
      ∀ j, c8res.1 j 0 = (c8A j 0 - np_mean (colAt c8A 0)) / np_mean (colAt c8A 0))) :=
  ⟨by decide, rfl,
    C8_percent_predemean (fun _ => 0) (fun _ => 0) c8A (by decide) c8res rfl 0⟩

/-- A concrete 2-voxel, 1-timepoint matrix whose column mean is 0 while its entries
are nonzero: with `"percent"` and no demeaning the normalization factor is 0 and the
division produces infinities. -/
def c5data : Fin 2 → Fin 1 → ℚ := fun j _ => if j = 0 then 1 else -1

/-- The value `normalizePhase` computes on `c5data` with `"percent"`, no demeaning. -/
def c5res : (Fin 2 → Fin 1 → ℚ) × (Fin 1 → ℚ) × (Fin 1 → ℚ) :=
  (fun j i => nan_to_num (npDiv (demeanedMatrix c5data false j i) (themeanOf c5data i)),
   themeanOf c5data, themeanOf c5data)

/-- Claim C5 counterexample: on `c5data` with `normmethod="percent"`, `demean=False`,
the factor for timepoint 0 is 0 and the entry of voxel 0 (value `1/0 = +inf`) comes
out of `np.nan_to_num` as the largest finite double, not 0: non-finite entries are
not all replaced with 0, and the zero-factor column is not all 0. -/
theorem C5_counterexample :
    (normalizePhase (fun _ => 0) (fun _ => 0) c5data "percent" false).toOption.map
      (fun r => (r.1 0 0, r.2.2 0)) = some (dblMax, 0) ∧ dblMax ≠ 0 := by
  have hm : themeanOf c5data 0 = 0 := by
    simp [themeanOf, np_mean, colAt, c5data, Fin.sum_univ_succ]
  constructor
  · have h1 : normalizePhase (fun _ => 0) (fun _ => 0) c5data "percent" false
        = .ok c5res := rfl
    rw [h1]
    show some (c5res.1 0 0, c5res.2.2 0) = some (dblMax, 0)
    have h3 : c5res.1 0 0 = dblMax := by
      show nan_to_num (npDiv (demeanedMatrix c5data false 0 0) (themeanOf c5data 0))
        = dblMax
      rw [show demeanedMatrix c5data false 0 0 = 1 from rfl, hm]
      rfl
    have h2 : c5res.2.2 0 = 0 := hm
    rw [h3, h2]
  · norm_num [dblMax]

/-- Claim C5 (amended): `np.nan_to_num` replaces NaN with 0 and the two infinities
with plus/minus the largest finite double, so after line 163 `procdata` holds only
finite values; for a timepoint whose normalization factor is 0, an entry whose
numerator is 0 becomes 0 (the NaN case) while nonzero numerators become plus or minus
the largest finite double. -/
theorem C5_nonfinite_cleanup {v t : ℕ} (stdFn madFn : (Fin v → ℚ) → ℚ)
    (A : Fin v → Fin t → ℚ) (m : String) (dm : Bool)
    (res : (Fin v → Fin t → ℚ) × (Fin t → ℚ) × (Fin t → ℚ))
    (hres : normalizePhase stdFn madFn A m dm = .ok res) (i : Fin t) (j : Fin v) :
    (nan_to_num .nan = 0 ∧ nan_to_num .inf = dblMax ∧ nan_to_num .ninf = -dblMax) ∧
    res.1 j i = nan_to_num (npDiv (demeanedMatrix A dm j i) (res.2.2 i)) ∧
    (res.2.2 i = 0 →
      (demeanedMatrix A dm j i = 0 → res.1 j i = 0) ∧
      (0 < demeanedMatrix A dm j i → res.1 j i = dblMax) ∧
      (demeanedMatrix A dm j i < 0 → res.1 j i = -dblMax)) := by
  obtain ⟨-, -, hdata⟩ := normalizePhase_spec _ _ _ _ _ _ hres
  refine ⟨⟨rfl, rfl, rfl⟩, hdata j i,
    fun hz => ⟨fun h0 => ?_, fun hpos => ?_, fun hneg => ?_⟩⟩
  · rw [hdata j i, hz, h0]
    rfl
  · rw [hdata j i, hz]
    unfold npDiv
    rw [if_pos rfl, if_neg (ne_of_gt hpos), if_pos hpos]
    rfl
  · rw [hdata j i, hz]
    unfold npDiv
    rw [if_pos rfl, if_neg (ne_of_lt hneg), if_neg (lt_asymm hneg)]
    rfl

theorem C5_nonfinite_cleanup_witness :
    normalizePhase (fun _ => 0) (fun _ => 0) c5data "percent" false = .ok c5res ∧
    ((nan_to_num .nan = 0 ∧ nan_to_num .inf = dblMax ∧ nan_to_num .ninf = -dblMax) ∧
    c5res.1 0 0 = nan_to_num (npDiv (demeanedMatrix c5data false 0 0) (c5res.2.2 0)) ∧
    (c5res.2.2 0 = 0 →
      (demeanedMatrix c5data false 0 0 = 0 → c5res.1 0 0 = 0) ∧
      (0 < demeanedMatrix c5data false 0 0 → c5res.1 0 0 = dblMax) ∧
      (demeanedMatrix c5data false 0 0 < 0 → c5res.1 0 0 = -dblMax))) :=
  ⟨rfl, C5_nonfinite_cleanup (fun _ => 0) (fun _ => 0) c5data "percent" false c5res rfl 0 0⟩

/-- A Python value as it flows through the `pcacomponents` variable: a number (the
parameter's float/int value) or a string (after line 203 assigns `"mle"`). -/
inductive PyVal where
  | num (q : ℚ)
  | str (s : String)
  deriving DecidableEq

/-- Python 3 `<`: numbers compare with numbers and strings with strings; comparing a
string with a number raises `TypeError`. -/
def pyLt : PyVal → PyVal → Except PipeError Bool
  | .num a, .num b => .ok (decide (a < b))
  | .str a, .str b => .ok (decide (a < b))
  | _, _ => .error .typeError

/-- The information Python attaches to a caught exception, as used by the message
template at lines 188-191: the exception type's name and the `repr` of its args. -/
structure PyException where
  typeName : String
  argsRepr : String
  deriving DecidableEq

/-- The persisted/constructed scikit-learn model object, carrying what the claims
need: which class it is and the `n_components` it was constructed with. -/
structure PCAModel where
  kind : String
  n_components : PyVal
  deriving DecidableEq

/-- Whether the model used below came from `joblib.load` or from a fresh
construction (lines 205-208). -/
inductive FitSource where
  | loadedModel (m : PCAModel)
  | freshModel (m : PCAModel)
  deriving DecidableEq

/-- Lines 182-211, the PCA/SparsePCA branch head.  With a trained-model root, load
`<root>_pca.joblib`; on failure print the Model Load diagnostic built from the
exception type name, the model file name and the exception args, and abort (lines
185-193) — there is no fall-through to the fresh-fit branch.  Without one, replace a
negative `pcacomponents` by the string `"mle"` (lines 202-203) and construct a fresh
`PCA` or `SparsePCA` (lines 205-208).  The returned `PyVal` is the value the local
variable `pcacomponents` has after this block.  `loadFn` embeds `joblib.load`. -/
def getPcaModel (loadFn : String → Except PyException PCAModel)
    (trainedmodelroot : Option String) (decomptype : String) (pcacomponents : ℚ) :
    Except PipeError (FitSource × PyVal) :=
  match trainedmodelroot with
  | some root =>
    let modelfilename := root ++ "_pca.joblib"
    match loadFn modelfilename with
    | .ok thepca => .ok (.loadedModel thepca, .num pcacomponents)
    | .error ex => .error (.modelLoad ex.typeName modelfilename ex.argsRepr)
  | none =>
    let pc : PyVal := if pcacomponents < 0 then .str "mle" else .num pcacomponents
    let thepca : PCAModel :=
      if decomptype = "pca" then { kind := "PCA", n_components := pc }
      else { kind := "SparsePCA", n_components := pc }
    .ok (.freshModel thepca, pc)

/-- Python slicing `xs[0:stop]` on a sequence of length `ncompFound`: an integer stop
clamps (negative stops count from the end); a float or string stop raises
`TypeError`. -/
def pySliceLen (ncompFound : ℕ) (stop : PyVal) : Except PipeError ℕ :=
  match stop with
  | .num q =>
    if q.den = 1 then
      if 0 ≤ q.num then .ok (min ncompFound q.num.toNat)
      else .ok (ncompFound - (-q.num).toNat)
    else .error .typeError
  | .str _ => .error .typeError

/-- Lines 217-221: the component-retention step: `if pcacomponents < 1.0:` keep all
components, else keep `thefit.components_[0:pcacomponents]`. -/
def retainComponents (pcacomponents : PyVal) (ncompFound : ℕ) :
    Except PipeError ℕ :=
  match pyLt pcacomponents (.num 1) with
  | .error e => .error e
  | .ok true => .ok ncompFound
  | .ok false => pySliceLen ncompFound pcacomponents

/-- Claim C6: on the PCA/SparsePCA path with a trained-model root, a failing load of
the persisted model file produces the Model Load error carrying the exception type
name, the model file path `<root>_pca.joblib` and the exception arguments, and the
run terminates; the result is never a freshly constructed model. -/
theorem C6_model_load_failure
    (loadFn : String → Except PyException PCAModel) (root : String)
    (decomptype : String) (pcacomponents : ℚ) (ex : PyException)
    (hload : loadFn (root ++ "_pca.joblib") = .error ex) :
    getPcaModel loadFn (some root) decomptype pcacomponents
      = .error (.modelLoad ex.typeName (root ++ "_pca.joblib") ex.argsRepr) ∧
    ∀ m pc, getPcaModel loadFn (some root) decomptype pcacomponents
      ≠ .ok (.freshModel m, pc) := by
  unfold getPcaModel
  dsimp only
  rw [hload]
  exact ⟨rfl, fun m pc h => by cases h⟩

/-- A concrete `joblib.load` stand-in that fails on every path the way a missing
file does. -/
def c6load : String → Except PyException PCAModel :=
  fun _ => .error { typeName := "FileNotFoundError", argsRepr := "(2,)" }

theorem C6_model_load_failure_witness :
    c6load ("model" ++ "_pca.joblib")
      = .error { typeName := "FileNotFoundError", argsRepr := "(2,)" } ∧
    (getPcaModel c6load (some "model") "pca" (1/2)
      = .error (.modelLoad "FileNotFoundError" ("model" ++ "_pca.joblib") "(2,)") ∧
    ∀ m pc, getPcaModel c6load (some "model") "pca" (1/2)
      ≠ .ok (.freshModel m, pc)) :=
  ⟨rfl, C6_model_load_failure c6load "model" "pca" (1/2)
    { typeName := "FileNotFoundError", argsRepr := "(2,)" } rfl⟩

/-- Claim C10: on a fresh-fit PCA/SparsePCA invocation with negative
`pcacomponents`, line 203 replaces `pcacomponents` by the string `"mle"` before the
model is constructed (the constructed model carries it as its `n_components`), and
the retention test `pcacomponents < 1.0` at line 217 then compares a string with a
float, a `TypeError`: the automatic component-count path never completes the
retention step without error. -/
theorem C10_mle_retention_typeerror
    (loadFn : String → Except PyException PCAModel) (decomptype : String)
    (pcacomponents : ℚ) (h : pcacomponents < 0) (ncompFound : ℕ) :
    ∀ src pc, getPcaModel loadFn none decomptype pcacomponents = .ok (src, pc) →
      pc = .str "mle" ∧
      (∃ m, src = .freshModel m ∧ m.n_components = .str "mle") ∧
      retainComponents pc ncompFound = .error .typeError := by
  intro src pc hok
  unfold getPcaModel at hok
  dsimp only at hok
  rw [if_pos h] at hok
  by_cases hd : decomptype = "pca"
  · rw [if_pos hd] at hok
    cases hok
    exact ⟨rfl, ⟨_, rfl, rfl⟩, rfl⟩
  · rw [if_neg hd] at hok
    cases hok
    exact ⟨rfl, ⟨_, rfl, rfl⟩, rfl⟩

theorem C10_mle_retention_typeerror_witness :
    ((-1 : ℚ) < 0) ∧
    (∀ src pc, getPcaModel c6load none "pca" (-1) = .ok (src, pc) →
      pc = .str "mle" ∧
      (∃ m, src = .freshModel m ∧ m.n_components = .str "mle") ∧
      retainComponents pc 3 = .error .typeError) :=
  ⟨by norm_num, C10_mle_retention_typeerror c6load "pca" (-1) (by norm_num) 3⟩

/-- Every name `niftidecomp_workflow` binds when `decomptype = "ica"` and execution
reaches line 180: the twelve parameters (lines 32-43) and every assignment target on
the lines up to the ICA branch (47, 51-57, 59-60, 63-64, 71-72, 74-80, 83-87, 98,
106-108, 110, 123-127, 128, 134, 140-157, 172-179), conditional assignments
included. -/
def icaPathAssignedNames : List String :=
  ["datafilelist", "outputroot", "datamaskname", "decomptype", "pcacomponents",
   "icacomponents", "trainedmodelroot", "normmethod", "demean", "theprefilter",
   "sigma", "maskthresh",
   "decompaxisnum",
   "datamask_img", "datamask_data", "datamask_hdr", "datamaskdims", "datamasksizes",
   "xsize", "ysize", "numslices", "mask_timepoints", "numspatiallocs",
   "themask", "proclocs",
   "numfiles", "idx", "datafile",
   "datafile_img", "datafile_data", "datafile_hdr", "datafiledims", "datafilesizes",
   "timepoints", "xdim", "ydim", "slicethickness", "tr",
   "totaltimepoints", "originaldatafiledims", "rs_datafile",
   "i", "rs_singlefile",
   "themaxes", "themins", "thediffs",
   "procdata", "themean", "thenormfac",
   "thefit", "thecomponents"]

/-- Every name `niftidecomp_workflow` ever binds, on any path: the ICA-path names
plus the assignment targets of the PCA/SparsePCA branch (lines 183, 186-187,
188-191, 203, 206-208, 213-215, 218, 221, 224, 227-231, 234, 244, 246-248).
`thevar`, used at line 241, is not among them. -/
def workflowAssignedNames : List String :=
  icaPathAssignedNames ++
  ["modelfilename", "thepca", "ex", "template", "message",
   "thetransform", "theinvtrans",
   "exp_var_pct", "outputcomponents", "outputcoefficients",
   "theheader", "outinvtrans"]

/-- Lines 239-241: the denormalization loop
`theinvtrans[:, i] = thevar[i] * theinvtrans[:, i] + themean[i]`.  Evaluating the
loop body first resolves the name `thevar`; `bound` is the set of names the
enclosing scope has assigned, and a lookup miss is Python's `NameError`.
`thevarValue` is the value the name would resolve to if it were bound. -/
def denormStep (bound : List String) (theinvtrans : ℕ → ℕ → ℚ)
    (thevarValue themean : ℕ → ℚ) (totaltimepoints : ℕ) :
    Except PipeError (ℕ → ℕ → ℚ) :=
  if "thevar" ∈ bound then
    .ok (fun j i => if i < totaltimepoints
      then thevarValue i * theinvtrans j i + themean i
      else theinvtrans j i)
  else .error (.nameError "thevar")

/-- Lines 249-257: the names the return tuple references, in evaluation order. -/
def returnTupleNames : List String :=
  ["outputcomponents", "outputcoefficients", "outinvtrans", "exp_var_pct",
   "datafile_hdr", "datafiledims", "datafilesizes"]

/-- Evaluating the return tuple resolves its names left to right; the first name not
bound in the enclosing scope raises Python's `NameError`. -/
def evalReturnTuple (bound : List String) : Except PipeError Unit :=
  match returnTupleNames.find? (fun n => !(decide (n ∈ bound))) with
  | some n => .error (.nameError n)
  | none => .ok ()

/-- Claim C1 (code bug): the denormalization loop at lines 240-241 multiplies the
reconstruction by `thevar[i]`, but `thevar` is not among the names
`niftidecomp_workflow` ever assigns (while `thenormfac`, which the spec says should
be used, and `themean` are): on any environment bound within the function's names
the loop raises `NameError` instead of rescaling by the normalization factor and
re-adding the mean. -/
theorem C1_denorm_thevar_unbound
    (bound : List String) (hb : ∀ n ∈ bound, n ∈ workflowAssignedNames)
    (theinvtrans : ℕ → ℕ → ℚ) (tv tm : ℕ → ℚ) (T : ℕ) :
    denormStep bound theinvtrans tv tm T = .error (.nameError "thevar") ∧
    "thevar" ∉ workflowAssignedNames ∧
    "thenormfac" ∈ workflowAssignedNames ∧
    "themean" ∈ workflowAssignedNames := by
  have hnb : "thevar" ∉ bound := fun hmem => absurd (hb _ hmem) (by decide)
  refine ⟨?_, by decide, by decide, by decide⟩
  unfold denormStep
  rw [if_neg hnb]

theorem C1_denorm_thevar_unbound_witness :
    (∀ n ∈ workflowAssignedNames, n ∈ workflowAssignedNames) ∧
    (denormStep workflowAssignedNames (fun _ _ => 1) (fun _ => 1) (fun _ => 0) 1
      = .error (.nameError "thevar") ∧
    "thevar" ∉ workflowAssignedNames ∧
    "thenormfac" ∈ workflowAssignedNames ∧
    "themean" ∈ workflowAssignedNames) :=
  ⟨fun _ h => h,
    C1_denorm_thevar_unbound workflowAssignedNames (fun _ h => h)
      (fun _ _ => 1) (fun _ => 1) (fun _ => 0) 1⟩

/-- Claim C9: on the ICA path the return statement at lines 249-257 references
`outputcomponents`, `outputcoefficients`, `outinvtrans` and `exp_var_pct`, none of
which is assigned on that path (they are assigned only in the PCA/SparsePCA branch),
so evaluating the return tuple on any environment bound within the ICA path's names
raises `NameError` (on `outputcomponents`, the first of them) instead of
returning. -/
theorem C9_ica_return_unbound
    (bound : List String) (hb : ∀ n ∈ bound, n ∈ icaPathAssignedNames) :
    evalReturnTuple bound = .error (.nameError "outputcomponents") ∧
    "outputcomponents" ∉ icaPathAssignedNames ∧
    "outputcoefficients" ∉ icaPathAssignedNames ∧
    "outinvtrans" ∉ icaPathAssignedNames ∧
    "exp_var_pct" ∉ icaPathAssignedNames := by
  have hnb : "outputcomponents" ∉ bound := fun hmem => absurd (hb _ hmem) (by decide)
  refine ⟨?_, by decide, by decide, by decide, by decide⟩
  unfold evalReturnTuple
  have hp : (!(decide ("outputcomponents" ∈ bound))) = true := by simp [hnb]
  have hfind : returnTupleNames.find? (fun n => !(decide (n ∈ bound)))
      = some "outputcomponents" := List.find?_cons_of_pos _ hp
  rw [hfind]

theorem C9_ica_return_unbound_witness :
    (∀ n ∈ icaPathAssignedNames, n ∈ icaPathAssignedNames) ∧
    (evalReturnTuple icaPathAssignedNames = .error (.nameError "outputcomponents") ∧
    "outputcomponents" ∉ icaPathAssignedNames ∧
    "outputcoefficients" ∉ icaPathAssignedNames ∧
    "outinvtrans" ∉ icaPathAssignedNames ∧
    "exp_var_pct" ∉ icaPathAssignedNames) :=
  ⟨fun _ h => h, C9_ica_return_unbound icaPathAssignedNames (fun _ h => h)⟩

/-- Lines 227-228 and 246-247: allocate `np.zeros((numspatiallocs, k))` and scatter
row `r` of the voxel-indexed data to flat spatial index `proclocs[r]`
(`out[proclocs, :] = data[:, :]`); `proclocs` from `np.where` has no duplicates, so
the first hit is the only one. -/
def scatterRows (proclocs : List ℕ) (rows : ℕ → ℕ → ℚ) : ℕ → ℕ → ℚ :=
  fun j k =>
    match proclocs.findIdx? (fun p => p == j) with
    | some r => rows r k
    | none => 0

/-- Lines 229-231 and 248: reshape the flat `(numspatiallocs, k)` array to
`(xsize, ysize, numslices, k)`; C-order flattening places voxel `(a, b, c)` at flat
index `(a*ysize + b)*numslices + c`. -/
def reshape4 (ysize numslices : ℕ) (flat : ℕ → ℕ → ℚ) : ℕ → ℕ → ℕ → ℕ → ℚ :=
  fun a b c k => flat ((a * ysize + b) * numslices + c) k

/-- Lines 227-231: the component maps scattered back into the full volume. -/
def outputcomponentsOf (ysize numslices : ℕ) (proclocs : List ℕ)
    (thecomponents : ℕ → ℕ → ℚ) : ℕ → ℕ → ℕ → ℕ → ℚ :=
  reshape4 ysize numslices (scatterRows proclocs thecomponents)

/-- Lines 246-248: the reconstructed volume scattered back into the full volume. -/
def outinvtransOf (ysize numslices : ℕ) (proclocs : List ℕ)
    (theinvtrans : ℕ → ℕ → ℚ) : ℕ → ℕ → ℕ → ℕ → ℚ :=
  reshape4 ysize numslices (scatterRows proclocs theinvtrans)

theorem scatterRows_not_mem (proclocs : List ℕ) (rows : ℕ → ℕ → ℚ) (j k : ℕ)
    (h : j ∉ proclocs) : scatterRows proclocs rows j k = 0 := by
  unfold scatterRows
  have : proclocs.findIdx? (fun p => p == j) = none := by
    rw [List.findIdx?_eq_none_iff]
    intro p hp
    rw [beq_eq_false_iff_ne]
    exact fun e => h (e ▸ hp)
  rw [this]

/-- Claim C4: in both Reassembler outputs — the component maps of lines 227-231 and
the reconstructed volume of lines 246-248 — every spatial position whose flattened
index is not in `proclocs` is exactly 0 in every component/feature slice of the
reshaped `(x, y, slices, k)` array. -/
theorem C4_reassembler_zero_outside_proclocs
    (ysize numslices : ℕ) (proclocs : List ℕ)
    (thecomponents theinvtrans : ℕ → ℕ → ℚ) (a b c k : ℕ)
    (h : (a * ysize + b) * numslices + c ∉ proclocs) :
    outputcomponentsOf ysize numslices proclocs thecomponents a b c k = 0 ∧
    outinvtransOf ysize numslices proclocs theinvtrans a b c k = 0 :=
  ⟨scatterRows_not_mem _ _ _ _ h, scatterRows_not_mem _ _ _ _ h⟩

theorem C4_reassembler_zero_outside_proclocs_witness :
    ((1 * 2 + 1) * 1 + 0 ∉ [0, 2]) ∧
    (outputcomponentsOf 2 1 [0, 2] (fun _ _ => 5) 1 1 0 0 = 0 ∧
    outinvtransOf 2 1 [0, 2] (fun _ _ => 7) 1 1 0 0 = 0) :=
  ⟨by decide,
    C4_reassembler_zero_outside_proclocs 2 1 [0, 2]
      (fun _ _ => 5) (fun _ _ => 7) 1 1 0 0 (by decide)⟩

end Niftidecomp
